import Mathlib

/-!
Verification of the star-rating core of `src/solution.js`.

A Line in the page is modelled as the ordered sequence of its star-icon
children (`Marker`s), in document order.  The count-display span and the
button container are always positioned after every marker (markers are
inserted before them), so an insertion "before the count display /
buttons" is an append at the end of the marker list, and
`querySelector` / `querySelectorAll` order is list order.

All numeric values the script manipulates (totals and deltas) are
multiples of 0.5 below about 6, which IEEE doubles represent exactly, so
JavaScript number arithmetic coincides with exact rational arithmetic
and is embedded as `ℚ`.
-/

/-- One star icon inside a line: a full star (class `fa-star`, value 1)
or a half star (class `fa-star-half-o`, value 0.5). -/
inductive Marker where
  | full : Marker
  | half : Marker
deriving DecidableEq

/-- A line (`.wrapper` element) as its ordered sequence of star markers. -/
abbrev Line := List Marker

/-- Shape of the `STAR_LIMITS` configuration constant. -/
structure StarLimits where
  MIN : ℚ
  MAX : ℚ
deriving DecidableEq

/-- The `STAR_LIMITS` constant: minimum 1 and maximum 5 stars. -/
def STAR_LIMITS : StarLimits := { MIN := 1, MAX := 5 }

/-- Shape of the `COLOR_THRESHOLDS` configuration constant. -/
structure ColorThresholds where
  RED : ℚ
  YELLOW : ℚ
deriving DecidableEq

/-- The `COLOR_THRESHOLDS` constant. -/
def COLOR_THRESHOLDS : ColorThresholds := { RED := 2, YELLOW := 3 }

/-- The three display colors used by `getColorForStarCount`. -/
inductive Color where
  | red : Color
  | yellow : Color
  | green : Color
deriving DecidableEq

/-- Number of `fa-star` (full) markers in a line, in document order. -/
def fullCount : Line → ℕ
  | [] => 0
  | Marker.full :: rest => fullCount rest + 1
  | Marker.half :: rest => fullCount rest

/-- Number of `fa-star-half-o` (half) markers in a line. -/
def halfCount : Line → ℕ
  | [] => 0
  | Marker.half :: rest => halfCount rest + 1
  | Marker.full :: rest => halfCount rest

/-- Result record of `countStarsInLine`: `{fullStars, halfStars, total}`. -/
structure StarCount where
  fullStars : ℕ
  halfStars : ℕ
  total : ℚ
deriving DecidableEq

/-- The Counter, `countStarsInLine`: tallies full and half stars and computes
`total = fullStarsCount + halfStarsCount * 0.5`. -/
def countStarsInLine (lineElement : Line) : StarCount :=
  { fullStars := fullCount lineElement
    halfStars := halfCount lineElement
    total := (fullCount lineElement : ℚ) + (halfCount lineElement : ℚ) * (1/2) }

/-- The Classifier, `getColorForStarCount`: green when any half star is
present, else red when total ≤ 2, else yellow. -/
def getColorForStarCount (starCount : StarCount) : Color :=
  if starCount.halfStars > 0 then Color.green
  else if starCount.total ≤ COLOR_THRESHOLDS.RED then Color.red
  else Color.yellow

/-- The Limiter, `isStarChangeAllowed`: a proposed change is allowed when
`currentTotal + changeAmount` lies in `[STAR_LIMITS.MIN, STAR_LIMITS.MAX]`. -/
def isStarChangeAllowed (currentTotal changeAmount : ℚ) : Bool :=
  decide (STAR_LIMITS.MIN ≤ currentTotal + changeAmount) &&
    decide (currentTotal + changeAmount ≤ STAR_LIMITS.MAX)

/-- Insertion performed by `addFullStar`: the new full star goes immediately
before the first half star when one exists (`querySelector` returns the
first match), otherwise before the count display / buttons, i.e. at the
end of the marker list. -/
def insertFullBeforeFirstHalf : Line → Line
  | [] => [Marker.full]
  | Marker.half :: rest => Marker.full :: Marker.half :: rest
  | Marker.full :: rest => Marker.full :: insertFullBeforeFirstHalf rest

/-- Removal of the first half star in document order (`querySelector`
followed by `.remove()`); identity when no half star exists. -/
def removeFirstHalf : Line → Line
  | [] => []
  | Marker.half :: rest => rest
  | Marker.full :: rest => Marker.full :: removeFirstHalf rest

/-- Removal of the first full star in document order; identity when no
full star exists. -/
def removeFirstFull : Line → Line
  | [] => []
  | Marker.full :: rest => rest
  | Marker.half :: rest => Marker.half :: removeFirstFull rest

/-- Removal done by `removeFullStar`: `allFullStars[allFullStars.length - 1]`
is the last full star in document order. -/
def removeLastFull (l : Line) : Line :=
  (removeFirstFull l.reverse).reverse

/-- Insertion of a full star immediately before the first full star
(auxiliary for `insertFullAfterLastFull`); appends when none exists. -/
def insertFullBeforeFirstFull : Line → Line
  | [] => [Marker.full]
  | Marker.full :: rest => Marker.full :: Marker.full :: rest
  | Marker.half :: rest => Marker.half :: insertFullBeforeFirstFull rest

/-- Insertion performed by the merge branch of `addHalfStar`: the new full
star goes immediately after the last full star
(`lineElement.insertBefore(fullStarIcon, lastFullStar.nextSibling)`). -/
def insertFullAfterLastFull (l : Line) : Line :=
  (insertFullBeforeFirstFull l.reverse).reverse

/-- Replacement of the first full star by a half star at the same position
(auxiliary for `replaceLastFullWithHalf`); identity when no full star. -/
def replaceFirstFullWithHalf : Line → Line
  | [] => []
  | Marker.full :: rest => Marker.half :: rest
  | Marker.half :: rest => Marker.half :: replaceFirstFullWithHalf rest

/-- Conversion done by `removeHalfStar` when no half star exists: insert a
half star before the last full star, then remove that full star. -/
def replaceLastFullWithHalf (l : Line) : Line :=
  (replaceFirstFullWithHalf l.reverse).reverse

/-- The Mutator `addFullStar`: re-checks the limit with delta `+1`, then
inserts a full star before any existing half star (else at the end). -/
def addFullStar (lineElement : Line) : Line :=
  if isStarChangeAllowed (countStarsInLine lineElement).total 1 then
    insertFullBeforeFirstHalf lineElement
  else lineElement

/-- The Mutator `removeFullStar`: re-checks the limit with delta `-1`, then
removes the last full star when one exists (`if (allFullStars.length > 0)`),
and does nothing otherwise. -/
def removeFullStar (lineElement : Line) : Line :=
  if isStarChangeAllowed (countStarsInLine lineElement).total (-1) then
    if 0 < fullCount lineElement then removeLastFull lineElement else lineElement
  else lineElement

/-- The Mutator `addHalfStar`: re-checks the limit with delta `+0.5`.  When
a half star exists it is removed and a full star is inserted after the
last full star (appended at the end of markers when no full star remains);
otherwise a new half star is appended after all markers. -/
def addHalfStar (lineElement : Line) : Line :=
  if isStarChangeAllowed (countStarsInLine lineElement).total (1/2) then
    if 0 < halfCount lineElement then
      if 0 < fullCount (removeFirstHalf lineElement) then
        insertFullAfterLastFull (removeFirstHalf lineElement)
      else removeFirstHalf lineElement ++ [Marker.full]
    else lineElement ++ [Marker.half]
  else lineElement

/-- The Mutator `removeHalfStar`: re-checks the limit with delta `-0.5`.
When a half star exists it is removed; otherwise the last full star is
converted into a half star (nothing happens when neither exists). -/
def removeHalfStar (lineElement : Line) : Line :=
  if isStarChangeAllowed (countStarsInLine lineElement).total (-(1/2)) then
    if 0 < halfCount lineElement then removeFirstHalf lineElement
    else if 0 < fullCount lineElement then replaceLastFullWithHalf lineElement
    else lineElement
  else lineElement

/-- The dispatch chain inside `handleStarChange`: the four recognised
deltas call the four Mutators; any other value falls through. -/
def applyStarChange (lineElement : Line) (changeAmount : ℚ) : Line :=
  if changeAmount = 1 then addFullStar lineElement
  else if changeAmount = -1 then removeFullStar lineElement
  else if changeAmount = 1/2 then addHalfStar lineElement
  else if changeAmount = -(1/2) then removeHalfStar lineElement
  else lineElement

/-- The central handler `handleStarChange` restricted to one line: validate
with the Limiter, return the line unchanged on rejection, otherwise apply
the dispatched Mutator. -/
def handleStarChange (lineElement : Line) (changeAmount : ℚ) : Line :=
  if isStarChangeAllowed (countStarsInLine lineElement).total changeAmount then
    applyStarChange lineElement changeAmount
  else lineElement

/-- The function `calculateTotalStars`: sum of `countStarsInLine(line).total`
over all lines of the page. -/
def calculateTotalStars (allLines : List Line) : ℚ :=
  (allLines.map fun l => (countStarsInLine l).total).sum

/-- Observable page state relevant to the claims: the lines and the text of
the `total-stars-display` region (as the rational it shows). -/
structure PageState where
  lines : List Line
  displayedTotal : ℚ
deriving DecidableEq

/-- The function `updateTotalDisplay()` called with no argument: recompute
`calculateTotalStars()` and write it into the display region. -/
def updateTotalDisplay (s : PageState) : PageState :=
  { s with displayedTotal := calculateTotalStars s.lines }

/-- The full `handleStarChange(lineElement, changeAmount)` at page level,
acting on line `i`: on rejection it returns early (no mutation, no display
update); on acceptance it runs the dispatched Mutator on that line and
then `updateTotalDisplay()`. -/
def handleStarChangePage (s : PageState) (i : ℕ) (changeAmount : ℚ) : PageState :=
  match s.lines[i]? with
  | none => s
  | some l =>
    if isStarChangeAllowed (countStarsInLine l).total changeAmount then
      updateTotalDisplay { s with lines := s.lines.set i (applyStarChange l changeAmount) }
    else s

/-- Canonical line with `n` full markers followed by `h` half markers. -/
def mkLine (n h : ℕ) : Line :=
  List.replicate n Marker.full ++ List.replicate h Marker.half

/-- The Marker invariant of the data model: all full markers precede the
half marker and at most one half marker exists. -/
def Canonical (l : Line) : Prop :=
  ∃ n h, h ≤ 1 ∧ l = mkLine n h

example : countStarsInLine [Marker.full, Marker.full, Marker.half] =
    { fullStars := 2, halfStars := 1, total := 5/2 } := by
  norm_num [countStarsInLine, fullCount, halfCount]

example : handleStarChange (mkLine 2 1) (1/2) = mkLine 3 0 := by
  norm_num [handleStarChange, applyStarChange, addHalfStar, isStarChangeAllowed,
    countStarsInLine, STAR_LIMITS, mkLine, List.replicate, fullCount, halfCount,
    removeFirstHalf, insertFullAfterLastFull, insertFullBeforeFirstFull]

example : handleStarChange (mkLine 1 0) (-1) = mkLine 1 0 := by
  norm_num [handleStarChange, isStarChangeAllowed,
    countStarsInLine, STAR_LIMITS, mkLine, List.replicate, fullCount, halfCount]

lemma fullCount_append (a b : Line) : fullCount (a ++ b) = fullCount a + fullCount b := by
  induction a with
  | nil => simp [fullCount]
  | cons m rest ih => cases m <;> simp [fullCount, ih] <;> omega

lemma halfCount_append (a b : Line) : halfCount (a ++ b) = halfCount a + halfCount b := by
  induction a with
  | nil => simp [halfCount]
  | cons m rest ih => cases m <;> simp [halfCount, ih] <;> omega

lemma fullCount_reverse (l : Line) : fullCount l.reverse = fullCount l := by
  induction l with
  | nil => rfl
  | cons m rest ih => cases m <;> simp [fullCount, List.reverse_cons, fullCount_append, ih]

lemma halfCount_reverse (l : Line) : halfCount l.reverse = halfCount l := by
  induction l with
  | nil => rfl
  | cons m rest ih => cases m <;> simp [halfCount, List.reverse_cons, halfCount_append, ih]

lemma fullCount_replicate_full (n : ℕ) : fullCount (List.replicate n Marker.full) = n := by
  induction n with
  | zero => rfl
  | succ k ih => simp [List.replicate_succ, fullCount, ih]

lemma fullCount_replicate_half (h : ℕ) : fullCount (List.replicate h Marker.half) = 0 := by
  induction h with
  | zero => rfl
  | succ k ih => simp [List.replicate_succ, fullCount, ih]

lemma halfCount_replicate_full (n : ℕ) : halfCount (List.replicate n Marker.full) = 0 := by
  induction n with
  | zero => rfl
  | succ k ih => simp [List.replicate_succ, halfCount, ih]

lemma halfCount_replicate_half (h : ℕ) : halfCount (List.replicate h Marker.half) = h := by
  induction h with
  | zero => rfl
  | succ k ih => simp [List.replicate_succ, halfCount, ih]

lemma fullCount_mkLine (n h : ℕ) : fullCount (mkLine n h) = n := by
  simp [mkLine, fullCount_append, fullCount_replicate_full, fullCount_replicate_half]

lemma halfCount_mkLine (n h : ℕ) : halfCount (mkLine n h) = h := by
  simp [mkLine, halfCount_append, halfCount_replicate_full, halfCount_replicate_half]

lemma total_mkLine (n h : ℕ) :
    (countStarsInLine (mkLine n h)).total = (n : ℚ) + (h : ℚ) * (1/2) := by
  simp [countStarsInLine, fullCount_mkLine, halfCount_mkLine]

lemma allowed_iff (t d : ℚ) : isStarChangeAllowed t d = true ↔ 1 ≤ t + d ∧ t + d ≤ 5 := by
  simp [isStarChangeAllowed, STAR_LIMITS]

lemma mkLine_succ_full (n h : ℕ) : mkLine (n + 1) h = Marker.full :: mkLine n h := by
  simp [mkLine, List.replicate_succ]

lemma mkLine_zero_zero : mkLine 0 0 = [] := rfl

lemma insertFullBeforeFirstHalf_mk (n h : ℕ) :
    insertFullBeforeFirstHalf (mkLine n h) = mkLine (n + 1) h := by
  induction n with
  | zero => cases h <;> rfl
  | succ k ih =>
    rw [mkLine_succ_full]
    simp only [insertFullBeforeFirstHalf]
    rw [ih]
    simp [mkLine_succ_full]

lemma removeFirstHalf_replicate_full_append (n : ℕ) (t : Line) :
    removeFirstHalf (List.replicate n Marker.full ++ t) =
      List.replicate n Marker.full ++ removeFirstHalf t := by
  induction n with
  | zero => rfl
  | succ k ih => simp [List.replicate_succ, removeFirstHalf, ih]

lemma removeFirstHalf_mk_one (n : ℕ) : removeFirstHalf (mkLine n 1) = mkLine n 0 := by
  have := removeFirstHalf_replicate_full_append n (List.replicate 1 Marker.half)
  simpa [mkLine, removeFirstHalf] using this

lemma removeFirstFull_replicate_half_append (h : ℕ) (t : Line) :
    removeFirstFull (List.replicate h Marker.half ++ t) =
      List.replicate h Marker.half ++ removeFirstFull t := by
  induction h with
  | zero => rfl
  | succ k ih => simp [List.replicate_succ, removeFirstFull, ih]

lemma reverse_mkLine (n h : ℕ) :
    (mkLine n h).reverse = List.replicate h Marker.half ++ List.replicate n Marker.full := by
  simp [mkLine, List.reverse_append, List.reverse_replicate]

lemma removeLastFull_mk (n h : ℕ) :
    removeLastFull (mkLine (n + 1) h) = mkLine n h := by
  rw [removeLastFull, reverse_mkLine, removeFirstFull_replicate_half_append]
  simp only [List.replicate_succ, removeFirstFull]
  simp [mkLine, List.reverse_append, List.reverse_replicate]

lemma insertFullBeforeFirstFull_replicate_full (n : ℕ) :
    insertFullBeforeFirstFull (List.replicate n Marker.full) =
      List.replicate (n + 1) Marker.full := by
  cases n with
  | zero => rfl
  | succ k => simp [List.replicate_succ, insertFullBeforeFirstFull]

lemma insertFullAfterLastFull_replicate_full (n : ℕ) :
    insertFullAfterLastFull (List.replicate n Marker.full) =
      List.replicate (n + 1) Marker.full := by
  rw [insertFullAfterLastFull, List.reverse_replicate, insertFullBeforeFirstFull_replicate_full,
    List.reverse_replicate]

lemma replaceLastFullWithHalf_mk (n : ℕ) :
    replaceLastFullWithHalf (List.replicate (n + 1) Marker.full) = mkLine n 1 := by
  rw [replaceLastFullWithHalf, List.reverse_replicate]
  simp only [List.replicate_succ, replaceFirstFullWithHalf]
  simp [mkLine, List.reverse_replicate, List.replicate_one]

lemma addFullStar_mk_acc (n h : ℕ)
    (hA : isStarChangeAllowed (countStarsInLine (mkLine n h)).total 1 = true) :
    addFullStar (mkLine n h) = mkLine (n + 1) h := by
  simp [addFullStar, hA, insertFullBeforeFirstHalf_mk]

lemma removeFullStar_mk_acc (n h : ℕ)
    (hA : isStarChangeAllowed (countStarsInLine (mkLine n h)).total (-1) = true) :
    removeFullStar (mkLine n h) = mkLine (n - 1) h := by
  cases n with
  | zero => simp [removeFullStar, hA, fullCount_mkLine]
  | succ k => simp [removeFullStar, hA, fullCount_mkLine, removeLastFull_mk]

lemma addHalfStar_mk_zero_acc (n : ℕ)
    (hA : isStarChangeAllowed (countStarsInLine (mkLine n 0)).total (1/2) = true) :
    addHalfStar (mkLine n 0) = mkLine n 1 := by
  have hh : ¬ (0 < halfCount (mkLine n 0)) := by simp [halfCount_mkLine]
  unfold addHalfStar
  rw [if_pos hA, if_neg hh]
  simp [mkLine, List.replicate_one]

lemma addHalfStar_mk_one_acc (n : ℕ)
    (hA : isStarChangeAllowed (countStarsInLine (mkLine n 1)).total (1/2) = true) :
    addHalfStar (mkLine n 1) = mkLine (n + 1) 0 := by
  have hh : 0 < halfCount (mkLine n 1) := by simp [halfCount_mkLine]
  unfold addHalfStar
  rw [if_pos hA, if_pos hh, removeFirstHalf_mk_one]
  cases n with
  | zero =>
    have hf : ¬ (0 < fullCount (mkLine 0 0)) := by simp [fullCount_mkLine]
    rw [if_neg hf]
    rfl
  | succ k =>
    have hf : 0 < fullCount (mkLine (k + 1) 0) := by simp [fullCount_mkLine]
    rw [if_pos hf]
    have hins : insertFullAfterLastFull (mkLine (k + 1) 0) =
        List.replicate (k + 2) Marker.full := by
      have h2 := insertFullAfterLastFull_replicate_full (k + 1)
      simpa [mkLine] using h2
    rw [hins]
    simp [mkLine]

lemma removeHalfStar_mk_one_acc (n : ℕ)
    (hA : isStarChangeAllowed (countStarsInLine (mkLine n 1)).total (-(1/2)) = true) :
    removeHalfStar (mkLine n 1) = mkLine n 0 := by
  have hh : 0 < halfCount (mkLine n 1) := by simp [halfCount_mkLine]
  unfold removeHalfStar
  rw [if_pos hA, if_pos hh, removeFirstHalf_mk_one]

lemma removeHalfStar_mk_zero_acc (n : ℕ)
    (hA : isStarChangeAllowed (countStarsInLine (mkLine (n + 1) 0)).total (-(1/2)) = true) :
    removeHalfStar (mkLine (n + 1) 0) = mkLine n 1 := by
  have hh : ¬ (0 < halfCount (mkLine (n + 1) 0)) := by simp [halfCount_mkLine]
  have hf : 0 < fullCount (mkLine (n + 1) 0) := by simp [fullCount_mkLine]
  have hr : replaceLastFullWithHalf (mkLine (n + 1) 0) = mkLine n 1 := by
    have hrep := replaceLastFullWithHalf_mk n
    simpa [mkLine] using hrep
  unfold removeHalfStar
  rw [if_pos hA, if_neg hh, if_pos hf, hr]

lemma handleStarChange_acc (l : Line) (d : ℚ)
    (hA : isStarChangeAllowed (countStarsInLine l).total d = true) :
    handleStarChange l d = applyStarChange l d := by
  simp [handleStarChange, hA]

lemma handleStarChange_rej (l : Line) (d : ℚ)
    (hA : isStarChangeAllowed (countStarsInLine l).total d = false) :
    handleStarChange l d = l := by
  simp [handleStarChange, hA]

lemma applyStarChange_one (l : Line) : applyStarChange l 1 = addFullStar l := by
  norm_num [applyStarChange]

lemma applyStarChange_neg_one (l : Line) : applyStarChange l (-1) = removeFullStar l := by
  norm_num [applyStarChange]

lemma applyStarChange_half (l : Line) : applyStarChange l (1/2) = addHalfStar l := by
  norm_num [applyStarChange]

lemma applyStarChange_neg_half (l : Line) : applyStarChange l (-(1/2)) = removeHalfStar l := by
  norm_num [applyStarChange]

lemma applyStarChange_other (l : Line) (d : ℚ)
    (h1 : d ≠ 1) (h2 : d ≠ -1) (h3 : d ≠ 1/2) (h4 : d ≠ -(1/2)) :
    applyStarChange l d = l := by
  unfold applyStarChange
  rw [if_neg h1, if_neg h2, if_neg h3, if_neg h4]

lemma acc_bounds (n h : ℕ) (d : ℚ)
    (hA : isStarChangeAllowed (countStarsInLine (mkLine n h)).total d = true) :
    1 ≤ (n : ℚ) + (h : ℚ) * (1/2) + d ∧ (n : ℚ) + (h : ℚ) * (1/2) + d ≤ 5 := by
  rw [total_mkLine] at hA
  exact (allowed_iff _ _).mp hA

lemma pos_of_acc_neg_one (n h : ℕ) (hh : h ≤ 1)
    (hA : isStarChangeAllowed (countStarsInLine (mkLine n h)).total (-1) = true) :
    0 < n := by
  have hb := acc_bounds n h (-1) hA
  have hq : (h : ℚ) ≤ 1 := by exact_mod_cast hh
  have h0 : (0 : ℚ) < (n : ℚ) := by linarith [hb.1]
  exact_mod_cast h0

lemma pos_of_acc_neg_half (n : ℕ)
    (hA : isStarChangeAllowed (countStarsInLine (mkLine n 0)).total (-(1/2)) = true) :
    0 < n := by
  have hb := acc_bounds n 0 (-(1/2)) hA
  have h1 := hb.1
  push_cast at h1
  have h0 : (0 : ℚ) < (n : ℚ) := by linarith
  exact_mod_cast h0

lemma handleStarChange_mk_one_acc (n h : ℕ)
    (hA : isStarChangeAllowed (countStarsInLine (mkLine n h)).total 1 = true) :
    handleStarChange (mkLine n h) 1 = mkLine (n + 1) h := by
  rw [handleStarChange_acc _ _ hA, applyStarChange_one, addFullStar_mk_acc n h hA]

lemma handleStarChange_mk_neg_one_acc (n h : ℕ)
    (hA : isStarChangeAllowed (countStarsInLine (mkLine n h)).total (-1) = true) :
    handleStarChange (mkLine n h) (-1) = mkLine (n - 1) h := by
  rw [handleStarChange_acc _ _ hA, applyStarChange_neg_one, removeFullStar_mk_acc n h hA]

lemma handleStarChange_mk_half_zero_acc (n : ℕ)
    (hA : isStarChangeAllowed (countStarsInLine (mkLine n 0)).total (1/2) = true) :
    handleStarChange (mkLine n 0) (1/2) = mkLine n 1 := by
  rw [handleStarChange_acc _ _ hA, applyStarChange_half, addHalfStar_mk_zero_acc n hA]

lemma handleStarChange_mk_half_one_acc (n : ℕ)
    (hA : isStarChangeAllowed (countStarsInLine (mkLine n 1)).total (1/2) = true) :
    handleStarChange (mkLine n 1) (1/2) = mkLine (n + 1) 0 := by
  rw [handleStarChange_acc _ _ hA, applyStarChange_half, addHalfStar_mk_one_acc n hA]

lemma handleStarChange_mk_neg_half_one_acc (n : ℕ)
    (hA : isStarChangeAllowed (countStarsInLine (mkLine n 1)).total (-(1/2)) = true) :
    handleStarChange (mkLine n 1) (-(1/2)) = mkLine n 0 := by
  rw [handleStarChange_acc _ _ hA, applyStarChange_neg_half, removeHalfStar_mk_one_acc n hA]

lemma handleStarChange_mk_neg_half_zero_acc (n : ℕ)
    (hA : isStarChangeAllowed (countStarsInLine (mkLine (n + 1) 0)).total (-(1/2)) = true) :
    handleStarChange (mkLine (n + 1) 0) (-(1/2)) = mkLine n 1 := by
  rw [handleStarChange_acc _ _ hA, applyStarChange_neg_half, removeHalfStar_mk_zero_acc n hA]

lemma canonical_handleStarChange (l : Line) (hC : Canonical l) (d : ℚ) :
    Canonical (handleStarChange l d) := by
  obtain ⟨n, h, hh, rfl⟩ := hC
  by_cases hA : isStarChangeAllowed (countStarsInLine (mkLine n h)).total d = true
  · by_cases h1 : d = 1
    · subst h1; rw [handleStarChange_mk_one_acc n h hA]; exact ⟨n + 1, h, hh, rfl⟩
    · by_cases h2 : d = -1
      · subst h2; rw [handleStarChange_mk_neg_one_acc n h hA]; exact ⟨n - 1, h, hh, rfl⟩
      · by_cases h3 : d = 1/2
        · subst h3
          interval_cases h
          · rw [handleStarChange_mk_half_zero_acc n hA]; exact ⟨n, 1, le_refl 1, rfl⟩
          · rw [handleStarChange_mk_half_one_acc n hA]; exact ⟨n + 1, 0, by omega, rfl⟩
        · by_cases h4 : d = -(1/2)
          · subst h4
            interval_cases h
            · have hn := pos_of_acc_neg_half n hA
              obtain ⟨m, rfl⟩ : ∃ m, n = m + 1 := ⟨n - 1, by omega⟩
              rw [handleStarChange_mk_neg_half_zero_acc m hA]
              exact ⟨m, 1, le_refl 1, rfl⟩
            · rw [handleStarChange_mk_neg_half_one_acc n hA]; exact ⟨n, 0, by omega, rfl⟩
          · rw [handleStarChange_acc _ _ hA, applyStarChange_other _ d h1 h2 h3 h4]
            exact ⟨n, h, hh, rfl⟩
  · rw [handleStarChange_rej _ _ (by simpa using hA)]
    exact ⟨n, h, hh, rfl⟩

/-- C4: the Limiter `isStarChangeAllowed` returns `true` exactly when
`currentTotal + changeAmount` lies in the closed range `[1, 5]`.  It is a
plain function of its two arguments, so it mutates no state by
construction.  This holds for every rational delta, hence in particular
for the four deltas `+1, -1, +0.5, -0.5` used by the controls. -/
theorem limiter_accepts_iff_in_range (currentTotal changeAmount : ℚ) :
    isStarChangeAllowed currentTotal changeAmount = true ↔
      1 ≤ currentTotal + changeAmount ∧ currentTotal + changeAmount ≤ 5 :=
  allowed_iff currentTotal changeAmount

/-- C3: the Classifier `getColorForStarCount` returns green (`flagged`)
whenever the half-star count is positive, regardless of total; otherwise
red (`low`) when total ≤ 2 and yellow (`mid`) when total > 2.  In
particular (total 2, half 0) is red, (total 2.5, half 1) is green, and
(total 3, half 0) is yellow. -/
theorem classifier_cases (c : StarCount) :
    (0 < c.halfStars → getColorForStarCount c = Color.green) ∧
    (c.halfStars = 0 → c.total ≤ 2 → getColorForStarCount c = Color.red) ∧
    (c.halfStars = 0 → 2 < c.total → getColorForStarCount c = Color.yellow) ∧
    getColorForStarCount { fullStars := 2, halfStars := 0, total := 2 } = Color.red ∧
    getColorForStarCount { fullStars := 2, halfStars := 1, total := 5/2 } = Color.green ∧
    getColorForStarCount { fullStars := 3, halfStars := 0, total := 3 } = Color.yellow := by
  refine ⟨?_, ?_, ?_, ?_, ?_, ?_⟩
  · intro hp
    simp [getColorForStarCount, hp]
  · intro h0 ht
    simp [getColorForStarCount, h0, COLOR_THRESHOLDS, ht]
  · intro h0 ht
    simp [getColorForStarCount, h0, COLOR_THRESHOLDS, not_le.mpr ht]
  · norm_num [getColorForStarCount, COLOR_THRESHOLDS]
  · norm_num [getColorForStarCount, COLOR_THRESHOLDS]
  · norm_num [getColorForStarCount, COLOR_THRESHOLDS]

/-- Witness for C3 at concrete counts. -/
theorem classifier_cases_witness :
    getColorForStarCount { fullStars := 0, halfStars := 1, total := 1/2 } = Color.green ∧
    getColorForStarCount { fullStars := 1, halfStars := 0, total := 1 } = Color.red ∧
    getColorForStarCount { fullStars := 4, halfStars := 0, total := 4 } = Color.yellow :=
  ⟨(classifier_cases { fullStars := 0, halfStars := 1, total := 1/2 }).1 (by norm_num),
   (classifier_cases { fullStars := 1, halfStars := 0, total := 1 }).2.1 rfl (by norm_num),
   (classifier_cases { fullStars := 4, halfStars := 0, total := 4 }).2.2.1 rfl (by norm_num)⟩

/-- C1: for every Line satisfying the Marker invariant and every delta in
`{+1, -1, +0.5, -0.5}` accepted by the Limiter, the total after
`handleStarChange` lies in `[1, 5]`. -/
theorem total_in_range_after_accepted_change (l : Line) (d : ℚ)
    (hC : Canonical l)
    (hd : d = 1 ∨ d = -1 ∨ d = 1/2 ∨ d = -(1/2))
    (hA : isStarChangeAllowed (countStarsInLine l).total d = true) :
    1 ≤ (countStarsInLine (handleStarChange l d)).total ∧
      (countStarsInLine (handleStarChange l d)).total ≤ 5 := by
  obtain ⟨n, h, hh, rfl⟩ := hC
  have hb := acc_bounds n h d hA
  rcases hd with rfl | rfl | rfl | rfl
  · rw [handleStarChange_mk_one_acc n h hA, total_mkLine]
    push_cast at hb ⊢
    constructor <;> linarith [hb.1, hb.2]
  · have hn := pos_of_acc_neg_one n h hh hA
    rw [handleStarChange_mk_neg_one_acc n h hA, total_mkLine]
    have hc : ((n - 1 : ℕ) : ℚ) = (n : ℚ) - 1 := by
      have : 1 ≤ n := hn
      push_cast [this]
      ring
    rw [hc]
    constructor <;> linarith [hb.1, hb.2]
  · interval_cases h
    · rw [handleStarChange_mk_half_zero_acc n hA, total_mkLine]
      push_cast at hb ⊢
      constructor <;> linarith [hb.1, hb.2]
    · rw [handleStarChange_mk_half_one_acc n hA, total_mkLine]
      push_cast at hb ⊢
      constructor <;> linarith [hb.1, hb.2]
  · interval_cases h
    · have hn := pos_of_acc_neg_half n hA
      obtain ⟨m, rfl⟩ : ∃ m, n = m + 1 := ⟨n - 1, by omega⟩
      rw [handleStarChange_mk_neg_half_zero_acc m hA, total_mkLine]
      push_cast at hb ⊢
      constructor <;> linarith [hb.1, hb.2]
    · rw [handleStarChange_mk_neg_half_one_acc n hA, total_mkLine]
      push_cast at hb ⊢
      constructor <;> linarith [hb.1, hb.2]

/-- Witness for C1: adding one star to a two-star line. -/
theorem total_in_range_after_accepted_change_witness :
    1 ≤ (countStarsInLine (handleStarChange (mkLine 2 0) 1)).total ∧
      (countStarsInLine (handleStarChange (mkLine 2 0) 1)).total ≤ 5 :=
  total_in_range_after_accepted_change (mkLine 2 0) 1 ⟨2, 0, by omega, rfl⟩
    (Or.inl rfl)
    (by norm_num [isStarChangeAllowed, STAR_LIMITS, countStarsInLine, mkLine,
      List.replicate, fullCount, halfCount])

/-- C2: starting from any Line satisfying the Marker invariant, after any
finite sequence of `handleStarChange` operations the Line still satisfies
the invariant: at most one half marker, placed after all full markers. -/
theorem half_marker_invariant_all_sequences (l : Line) (hC : Canonical l) (ds : List ℚ) :
    Canonical (ds.foldl handleStarChange l) ∧
      halfCount (ds.foldl handleStarChange l) ≤ 1 := by
  have main : Canonical (ds.foldl handleStarChange l) := by
    induction ds generalizing l with
    | nil => simpa using hC
    | cons d rest ih => simpa using ih _ (canonical_handleStarChange l hC d)
  refine ⟨main, ?_⟩
  obtain ⟨n, h, hh, he⟩ := main
  rw [he, halfCount_mkLine]
  exact hh

/-- Witness for C2: a two-step sequence on a one-star line. -/
theorem half_marker_invariant_all_sequences_witness :
    Canonical ([(1 : ℚ), 1/2].foldl handleStarChange [Marker.full]) ∧
      halfCount ([(1 : ℚ), 1/2].foldl handleStarChange [Marker.full]) ≤ 1 :=
  half_marker_invariant_all_sequences [Marker.full] ⟨1, 0, by omega, rfl⟩ [1, 1/2]

/-- C5: when the Limiter rejects the proposed delta for line `i`,
`handleStarChange` returns before mutating anything and before updating
any display, so the whole page state — every line's marker sequence and
the aggregate-total display — is unchanged; being a total function, the
handler also raises no fault. -/
theorem rejected_change_is_silent_noop (s : PageState) (i : ℕ) (l : Line) (d : ℚ)
    (hl : s.lines[i]? = some l)
    (hrej : isStarChangeAllowed (countStarsInLine l).total d = false) :
    handleStarChangePage s i d = s := by
  unfold handleStarChangePage
  rw [hl]
  simp [hrej]

/-- Witness for C5: removing a full star from a one-star line is rejected
and leaves the page untouched. -/
theorem rejected_change_is_silent_noop_witness :
    handleStarChangePage { lines := [[Marker.full]], displayedTotal := 1 } 0 (-1) =
      { lines := [[Marker.full]], displayedTotal := 1 } :=
  rejected_change_is_silent_noop { lines := [[Marker.full]], displayedTotal := 1 } 0
    [Marker.full] (-1) rfl
    (by norm_num [isStarChangeAllowed, STAR_LIMITS, countStarsInLine, fullCount, halfCount])

/-- C8: if the aggregate-total display currently equals the sum of all
lines' totals, it still does after `handleStarChange` on any line with any
delta — after an accepted mutation it shows the new sum (it is recomputed
from all lines), and a rejected mutation leaves the whole page state, the
display included, unchanged. -/
theorem aggregate_display_equals_sum (s : PageState) (i : ℕ) (d : ℚ)
    (hinv : s.displayedTotal = calculateTotalStars s.lines) :
    (handleStarChangePage s i d).displayedTotal =
        calculateTotalStars (handleStarChangePage s i d).lines ∧
      (∀ l, s.lines[i]? = some l →
        isStarChangeAllowed (countStarsInLine l).total d = false →
        handleStarChangePage s i d = s) := by
  constructor
  · unfold handleStarChangePage
    cases hl : s.lines[i]? with
    | none => exact hinv
    | some l =>
      by_cases hA : isStarChangeAllowed (countStarsInLine l).total d = true
      · simp [hA, updateTotalDisplay]
      · have hf : isStarChangeAllowed (countStarsInLine l).total d = false := by
          simpa using hA
        simp [hf]
        exact hinv
  · intro l hl hrej
    unfold handleStarChangePage
    rw [hl]
    simp [hrej]

/-- Witness for C8: adding a star to the first of two lines keeps the
display equal to the sum. -/
theorem aggregate_display_equals_sum_witness :
    (handleStarChangePage { lines := [mkLine 1 0, mkLine 2 0], displayedTotal := 3 } 0
        1).displayedTotal =
      calculateTotalStars (handleStarChangePage
        { lines := [mkLine 1 0, mkLine 2 0], displayedTotal := 3 } 0 1).lines :=
  (aggregate_display_equals_sum { lines := [mkLine 1 0, mkLine 2 0], displayedTotal := 3 } 0 1
    (by norm_num [calculateTotalStars, countStarsInLine, mkLine, List.replicate,
      fullCount, halfCount])).1

/-- C6: on a Line satisfying the Marker invariant, when delta `+0.5` is
accepted: if a half marker exists, `addHalfStar` removes it and appends a
full marker in its place, raising the total by exactly 0.5; if no half
marker exists, it appends a new half marker after all full markers. -/
theorem addHalf_merges_or_appends (l : Line) (hC : Canonical l)
    (hA : isStarChangeAllowed (countStarsInLine l).total (1/2) = true) :
    (0 < halfCount l →
      addHalfStar l = removeFirstHalf l ++ [Marker.full] ∧
        (countStarsInLine (addHalfStar l)).total = (countStarsInLine l).total + 1/2) ∧
    (halfCount l = 0 → addHalfStar l = l ++ [Marker.half]) := by
  obtain ⟨n, h, hh, rfl⟩ := hC
  interval_cases h
  · refine ⟨?_, ?_⟩
    · intro hp
      simp [halfCount_mkLine] at hp
    · intro _
      rw [addHalfStar_mk_zero_acc n hA]
      simp [mkLine, List.replicate_one]
  · refine ⟨?_, ?_⟩
    · intro _
      constructor
      · rw [addHalfStar_mk_one_acc n hA, removeFirstHalf_mk_one]
        simp [mkLine, List.replicate_succ']
      · rw [addHalfStar_mk_one_acc n hA, total_mkLine, total_mkLine]
        push_cast
        ring
    · intro h0
      simp [halfCount_mkLine] at h0

/-- Witness for C6: the merge on a 2.5-star line and the append on a
2-star line. -/
theorem addHalf_merges_or_appends_witness :
    (addHalfStar (mkLine 2 1) = removeFirstHalf (mkLine 2 1) ++ [Marker.full] ∧
      (countStarsInLine (addHalfStar (mkLine 2 1))).total =
        (countStarsInLine (mkLine 2 1)).total + 1/2) ∧
    addHalfStar (mkLine 2 0) = mkLine 2 0 ++ [Marker.half] :=
  ⟨(addHalf_merges_or_appends (mkLine 2 1) ⟨2, 1, by omega, rfl⟩
      (by norm_num [isStarChangeAllowed, STAR_LIMITS, countStarsInLine, mkLine,
        List.replicate, fullCount, halfCount])).1 (by decide),
   (addHalf_merges_or_appends (mkLine 2 0) ⟨2, 0, by omega, rfl⟩
      (by norm_num [isStarChangeAllowed, STAR_LIMITS, countStarsInLine, mkLine,
        List.replicate, fullCount, halfCount])).2 rfl⟩

/-- C7: on a Line satisfying the Marker invariant that contains a half
marker and whose total lies in `[1, 5]`, an accepted `+0.5` followed by
`-0.5` restores the original marker sequence: the merge into a full
marker and the split back into a half marker are mutually inverse. -/
theorem addHalf_then_removeHalf_roundtrip (l : Line) (hC : Canonical l)
    (hhalf : 0 < halfCount l)
    (h1 : 1 ≤ (countStarsInLine l).total) (h5 : (countStarsInLine l).total ≤ 5)
    (hA : isStarChangeAllowed (countStarsInLine l).total (1/2) = true) :
    handleStarChange (handleStarChange l (1/2)) (-(1/2)) = l := by
  obtain ⟨n, h, hh, rfl⟩ := hC
  have hone : h = 1 := by
    rw [halfCount_mkLine] at hhalf
    omega
  subst hone
  rw [handleStarChange_mk_half_one_acc n hA]
  have hA2 : isStarChangeAllowed (countStarsInLine (mkLine (n + 1) 0)).total (-(1/2)) = true := by
    rw [total_mkLine, allowed_iff]
    rw [total_mkLine] at h1 h5
    push_cast at h1 h5 ⊢
    constructor <;> linarith
  rw [handleStarChange_mk_neg_half_zero_acc n hA2]

/-- Witness for C7: round trip on a 2.5-star line. -/
theorem addHalf_then_removeHalf_roundtrip_witness :
    handleStarChange (handleStarChange (mkLine 2 1) (1/2)) (-(1/2)) = mkLine 2 1 :=
  addHalf_then_removeHalf_roundtrip (mkLine 2 1) ⟨2, 1, by omega, rfl⟩ (by decide)
    (by norm_num [countStarsInLine, mkLine, List.replicate, fullCount, halfCount])
    (by norm_num [countStarsInLine, mkLine, List.replicate, fullCount, halfCount])
    (by norm_num [isStarChangeAllowed, STAR_LIMITS, countStarsInLine, mkLine,
      List.replicate, fullCount, halfCount])

lemma removeFirstFull_append_no_full (x y : Line) (hx : fullCount x = 0) :
    removeFirstFull (x ++ y) = x ++ removeFirstFull y := by
  induction x with
  | nil => rfl
  | cons m rest ih =>
    cases m with
    | full => simp [fullCount] at hx
    | half =>
      have hr : fullCount rest = 0 := by simpa [fullCount] using hx
      simp [removeFirstFull, ih hr]

lemma removeLastFull_append_last (a b : Line) (hb : fullCount b = 0) :
    removeLastFull (a ++ Marker.full :: b) = a ++ b := by
  unfold removeLastFull
  rw [List.reverse_append, List.reverse_cons, List.append_assoc]
  rw [removeFirstFull_append_no_full b.reverse _ (by rw [fullCount_reverse]; exact hb)]
  simp [removeFirstFull, List.reverse_append]

/-- C9: when delta `-1` is accepted, `removeFullStar` removes exactly the
last full marker in document order (the marker pattern `a ++ full :: b`
with no full marker in `b` becomes `a ++ b`); when no full marker exists
at all it leaves the Line unchanged, and being a total function it throws
nothing. -/
theorem removeFull_removes_last_in_order (l : Line) :
    (∀ a b, l = a ++ Marker.full :: b → fullCount b = 0 →
        isStarChangeAllowed (countStarsInLine l).total (-1) = true →
        removeFullStar l = a ++ b) ∧
    (fullCount l = 0 → removeFullStar l = l) := by
  constructor
  · rintro a b rfl hb hA
    have hstep : fullCount (Marker.full :: b) = fullCount b + 1 := rfl
    have hf : 0 < fullCount (a ++ Marker.full :: b) := by
      rw [fullCount_append, hstep]
      omega
    unfold removeFullStar
    rw [if_pos hA, if_pos hf, removeLastFull_append_last a b hb]
  · intro h0
    have hf : ¬ (0 < fullCount l) := by omega
    unfold removeFullStar
    rw [if_neg hf]
    simp

/-- Witness for C9: removal from a 2.5-star line, and the no-op on a line
with only half markers. -/
theorem removeFull_removes_last_in_order_witness :
    removeFullStar [Marker.full, Marker.full, Marker.half] = [Marker.full, Marker.half] ∧
    removeFullStar [Marker.half, Marker.half] = [Marker.half, Marker.half] :=
  ⟨(removeFull_removes_last_in_order [Marker.full, Marker.full, Marker.half]).1
      [Marker.full] [Marker.half] rfl rfl
      (by norm_num [isStarChangeAllowed, STAR_LIMITS, countStarsInLine, fullCount, halfCount]),
   (removeFull_removes_last_in_order [Marker.half, Marker.half]).2 rfl⟩

lemma fullCount_insertFullBeforeFirstHalf (l : Line) :
    fullCount (insertFullBeforeFirstHalf l) = fullCount l + 1 := by
  induction l with
  | nil => rfl
  | cons m rest ih => cases m <;> simp [insertFullBeforeFirstHalf, fullCount, ih]

lemma halfCount_insertFullBeforeFirstHalf (l : Line) :
    halfCount (insertFullBeforeFirstHalf l) = halfCount l := by
  induction l with
  | nil => rfl
  | cons m rest ih => cases m <;> simp [insertFullBeforeFirstHalf, halfCount, ih]

lemma fullCount_removeFirstHalf (l : Line) :
    fullCount (removeFirstHalf l) = fullCount l := by
  induction l with
  | nil => rfl
  | cons m rest ih => cases m <;> simp [removeFirstHalf, fullCount, ih]

lemma halfCount_removeFirstHalf (l : Line) (h : 0 < halfCount l) :
    halfCount (removeFirstHalf l) = halfCount l - 1 := by
  induction l with
  | nil => simp [halfCount] at h
  | cons m rest ih =>
    cases m with
    | half => simp [removeFirstHalf, halfCount]
    | full =>
      have hr : 0 < halfCount rest := by simpa [halfCount] using h
      simp [removeFirstHalf, halfCount, ih hr]

lemma halfCount_removeFirstFull (l : Line) :
    halfCount (removeFirstFull l) = halfCount l := by
  induction l with
  | nil => rfl
  | cons m rest ih => cases m <;> simp [removeFirstFull, halfCount, ih]

lemma fullCount_removeFirstFull (l : Line) (h : 0 < fullCount l) :
    fullCount (removeFirstFull l) = fullCount l - 1 := by
  induction l with
  | nil => simp [fullCount] at h
  | cons m rest ih =>
    cases m with
    | full => simp [removeFirstFull, fullCount]
    | half =>
      have hr : 0 < fullCount rest := by simpa [fullCount] using h
      simp [removeFirstFull, fullCount, ih hr]

lemma fullCount_insertFullBeforeFirstFull (l : Line) :
    fullCount (insertFullBeforeFirstFull l) = fullCount l + 1 := by
  induction l with
  | nil => rfl
  | cons m rest ih => cases m <;> simp [insertFullBeforeFirstFull, fullCount, ih]

lemma halfCount_insertFullBeforeFirstFull (l : Line) :
    halfCount (insertFullBeforeFirstFull l) = halfCount l := by
  induction l with
  | nil => rfl
  | cons m rest ih => cases m <;> simp [insertFullBeforeFirstFull, halfCount, ih]

lemma fullCount_replaceFirstFullWithHalf (l : Line) (h : 0 < fullCount l) :
    fullCount (replaceFirstFullWithHalf l) = fullCount l - 1 := by
  induction l with
  | nil => simp [fullCount] at h
  | cons m rest ih =>
    cases m with
    | full => simp [replaceFirstFullWithHalf, fullCount]
    | half =>
      have hr : 0 < fullCount rest := by simpa [fullCount] using h
      simp [replaceFirstFullWithHalf, fullCount, ih hr]

lemma halfCount_replaceFirstFullWithHalf (l : Line) (h : 0 < fullCount l) :
    halfCount (replaceFirstFullWithHalf l) = halfCount l + 1 := by
  induction l with
  | nil => simp [fullCount] at h
  | cons m rest ih =>
    cases m with
    | full => simp [replaceFirstFullWithHalf, halfCount]
    | half =>
      have hr : 0 < fullCount rest := by simpa [fullCount] using h
      simp [replaceFirstFullWithHalf, halfCount, ih hr]

lemma fullCount_removeLastFull (l : Line) (h : 0 < fullCount l) :
    fullCount (removeLastFull l) = fullCount l - 1 := by
  unfold removeLastFull
  rw [fullCount_reverse, fullCount_removeFirstFull _ (by rw [fullCount_reverse]; exact h),
    fullCount_reverse]

lemma halfCount_removeLastFull (l : Line) :
    halfCount (removeLastFull l) = halfCount l := by
  unfold removeLastFull
  rw [halfCount_reverse, halfCount_removeFirstFull, halfCount_reverse]

lemma fullCount_insertFullAfterLastFull (l : Line) :
    fullCount (insertFullAfterLastFull l) = fullCount l + 1 := by
  unfold insertFullAfterLastFull
  rw [fullCount_reverse, fullCount_insertFullBeforeFirstFull, fullCount_reverse]

lemma halfCount_insertFullAfterLastFull (l : Line) :
    halfCount (insertFullAfterLastFull l) = halfCount l := by
  unfold insertFullAfterLastFull
  rw [halfCount_reverse, halfCount_insertFullBeforeFirstFull, halfCount_reverse]

lemma fullCount_replaceLastFullWithHalf (l : Line) (h : 0 < fullCount l) :
    fullCount (replaceLastFullWithHalf l) = fullCount l - 1 := by
  unfold replaceLastFullWithHalf
  rw [fullCount_reverse, fullCount_replaceFirstFullWithHalf _ (by rw [fullCount_reverse]; exact h),
    fullCount_reverse]

lemma halfCount_replaceLastFullWithHalf (l : Line) (h : 0 < fullCount l) :
    halfCount (replaceLastFullWithHalf l) = halfCount l + 1 := by
  unfold replaceLastFullWithHalf
  rw [halfCount_reverse, halfCount_replaceFirstFullWithHalf _ (by rw [fullCount_reverse]; exact h),
    halfCount_reverse]

lemma bool_ne_true_of_eq_false {b : Bool} (h : b = false) : ¬ (b = true) := by
  intro ht
  rw [ht] at h
  simp at h

lemma addFullStar_rej (l : Line)
    (hr : isStarChangeAllowed (countStarsInLine l).total 1 = false) :
    addFullStar l = l := by
  unfold addFullStar
  rw [if_neg (bool_ne_true_of_eq_false hr)]

lemma removeFullStar_rej (l : Line)
    (hr : isStarChangeAllowed (countStarsInLine l).total (-1) = false) :
    removeFullStar l = l := by
  unfold removeFullStar
  rw [if_neg (bool_ne_true_of_eq_false hr)]

lemma addHalfStar_rej (l : Line)
    (hr : isStarChangeAllowed (countStarsInLine l).total (1/2) = false) :
    addHalfStar l = l := by
  unfold addHalfStar
  rw [if_neg (bool_ne_true_of_eq_false hr)]

lemma removeHalfStar_rej (l : Line)
    (hr : isStarChangeAllowed (countStarsInLine l).total (-(1/2)) = false) :
    removeHalfStar l = l := by
  unfold removeHalfStar
  rw [if_neg (bool_ne_true_of_eq_false hr)]

lemma removeFullStar_nofull (l : Line) (hf : ¬ (0 < fullCount l)) :
    removeFullStar l = l := by
  unfold removeFullStar
  rw [if_neg hf]
  simp

lemma removeHalfStar_noop (l : Line) (hh : ¬ (0 < halfCount l)) (hf : ¬ (0 < fullCount l)) :
    removeHalfStar l = l := by
  unfold removeHalfStar
  rw [if_neg hh, if_neg hf]
  simp

lemma total_addFullStar_acc (l : Line)
    (hA : isStarChangeAllowed (countStarsInLine l).total 1 = true) :
    (countStarsInLine (addFullStar l)).total = (countStarsInLine l).total + 1 := by
  unfold addFullStar
  rw [if_pos hA]
  simp only [countStarsInLine, fullCount_insertFullBeforeFirstHalf,
    halfCount_insertFullBeforeFirstHalf]
  push_cast
  ring

lemma total_removeFullStar_acc (l : Line) (hf : 0 < fullCount l)
    (hA : isStarChangeAllowed (countStarsInLine l).total (-1) = true) :
    (countStarsInLine (removeFullStar l)).total = (countStarsInLine l).total - 1 := by
  unfold removeFullStar
  rw [if_pos hA, if_pos hf]
  simp only [countStarsInLine, fullCount_removeLastFull l hf, halfCount_removeLastFull]
  rw [Nat.cast_sub hf]
  push_cast
  ring

lemma total_addHalfStar_acc (l : Line)
    (hA : isStarChangeAllowed (countStarsInLine l).total (1/2) = true) :
    (countStarsInLine (addHalfStar l)).total = (countStarsInLine l).total + 1/2 := by
  unfold addHalfStar
  rw [if_pos hA]
  by_cases hh : 0 < halfCount l
  · rw [if_pos hh]
    have hfc : fullCount (removeFirstHalf l) = fullCount l := fullCount_removeFirstHalf l
    have hhc : halfCount (removeFirstHalf l) = halfCount l - 1 := halfCount_removeFirstHalf l hh
    by_cases hf : 0 < fullCount (removeFirstHalf l)
    · rw [if_pos hf]
      simp only [countStarsInLine, fullCount_insertFullAfterLastFull,
        halfCount_insertFullAfterLastFull, hfc, hhc]
      rw [Nat.cast_sub hh]
      push_cast
      ring
    · rw [if_neg hf]
      have e1 : fullCount (removeFirstHalf l ++ [Marker.full]) = fullCount l + 1 := by
        rw [fullCount_append, hfc]
        rfl
      have e2 : halfCount (removeFirstHalf l ++ [Marker.full]) = halfCount l - 1 := by
        rw [halfCount_append, hhc]
        rfl
      simp only [countStarsInLine, e1, e2]
      rw [Nat.cast_sub hh]
      push_cast
      ring
  · rw [if_neg hh]
    simp only [countStarsInLine, fullCount_append, halfCount_append, fullCount, halfCount]
    push_cast
    ring

lemma total_removeHalfStar_acc_half (l : Line) (hh : 0 < halfCount l)
    (hA : isStarChangeAllowed (countStarsInLine l).total (-(1/2)) = true) :
    (countStarsInLine (removeHalfStar l)).total = (countStarsInLine l).total - 1/2 := by
  unfold removeHalfStar
  rw [if_pos hA, if_pos hh]
  simp only [countStarsInLine, fullCount_removeFirstHalf, halfCount_removeFirstHalf l hh]
  rw [Nat.cast_sub hh]
  push_cast
  ring

lemma total_removeHalfStar_acc_full (l : Line) (hh : ¬ (0 < halfCount l))
    (hf : 0 < fullCount l)
    (hA : isStarChangeAllowed (countStarsInLine l).total (-(1/2)) = true) :
    (countStarsInLine (removeHalfStar l)).total = (countStarsInLine l).total - 1/2 := by
  unfold removeHalfStar
  rw [if_pos hA, if_neg hh, if_pos hf]
  simp only [countStarsInLine, fullCount_replaceLastFullWithHalf l hf,
    halfCount_replaceLastFullWithHalf l hf]
  rw [Nat.cast_sub hf]
  push_cast
  ring

/-- C10: each of the four Mutators re-checks the `[1, 5]` limit on entry
and returns the Line unchanged when the check fails, so calling any of
them directly — bypassing `handleStarChange` — never moves a Line whose
total is in `[1, 5]` outside that range. -/
theorem direct_mutators_stay_in_range (l : Line)
    (h1 : 1 ≤ (countStarsInLine l).total) (h5 : (countStarsInLine l).total ≤ 5) :
    ((isStarChangeAllowed (countStarsInLine l).total 1 = false → addFullStar l = l) ∧
     (isStarChangeAllowed (countStarsInLine l).total (-1) = false → removeFullStar l = l) ∧
     (isStarChangeAllowed (countStarsInLine l).total (1/2) = false → addHalfStar l = l) ∧
     (isStarChangeAllowed (countStarsInLine l).total (-(1/2)) = false → removeHalfStar l = l)) ∧
    ((1 ≤ (countStarsInLine (addFullStar l)).total ∧
        (countStarsInLine (addFullStar l)).total ≤ 5) ∧
     (1 ≤ (countStarsInLine (removeFullStar l)).total ∧
        (countStarsInLine (removeFullStar l)).total ≤ 5) ∧
     (1 ≤ (countStarsInLine (addHalfStar l)).total ∧
        (countStarsInLine (addHalfStar l)).total ≤ 5) ∧
     (1 ≤ (countStarsInLine (removeHalfStar l)).total ∧
        (countStarsInLine (removeHalfStar l)).total ≤ 5)) := by
  refine ⟨⟨addFullStar_rej l, removeFullStar_rej l, addHalfStar_rej l, removeHalfStar_rej l⟩,
    ?_, ?_, ?_, ?_⟩
  · by_cases hA : isStarChangeAllowed (countStarsInLine l).total 1 = true
    · have hb := (allowed_iff _ _).mp hA
      rw [total_addFullStar_acc l hA]
      constructor <;> linarith [hb.1, hb.2]
    · rw [addFullStar_rej l (by simpa using hA)]
      exact ⟨h1, h5⟩
  · by_cases hA : isStarChangeAllowed (countStarsInLine l).total (-1) = true
    · by_cases hf : 0 < fullCount l
      · have hb := (allowed_iff _ _).mp hA
        rw [total_removeFullStar_acc l hf hA]
        constructor <;> linarith [hb.1, hb.2]
      · rw [removeFullStar_nofull l hf]
        exact ⟨h1, h5⟩
    · rw [removeFullStar_rej l (by simpa using hA)]
      exact ⟨h1, h5⟩
  · by_cases hA : isStarChangeAllowed (countStarsInLine l).total (1/2) = true
    · have hb := (allowed_iff _ _).mp hA
      rw [total_addHalfStar_acc l hA]
      constructor <;> linarith [hb.1, hb.2]
    · rw [addHalfStar_rej l (by simpa using hA)]
      exact ⟨h1, h5⟩
  · by_cases hA : isStarChangeAllowed (countStarsInLine l).total (-(1/2)) = true
    · by_cases hh : 0 < halfCount l
      · have hb := (allowed_iff _ _).mp hA
        rw [total_removeHalfStar_acc_half l hh hA]
        constructor <;> linarith [hb.1, hb.2]
      · by_cases hf : 0 < fullCount l
        · have hb := (allowed_iff _ _).mp hA
          rw [total_removeHalfStar_acc_full l hh hf hA]
          constructor <;> linarith [hb.1, hb.2]
        · rw [removeHalfStar_noop l hh hf]
          exact ⟨h1, h5⟩
    · rw [removeHalfStar_rej l (by simpa using hA)]
      exact ⟨h1, h5⟩

/-- Witness for C10: direct calls on a two-star line stay in range. -/
theorem direct_mutators_stay_in_range_witness :
    1 ≤ (countStarsInLine (addFullStar [Marker.full, Marker.full])).total ∧
      (countStarsInLine (addFullStar [Marker.full, Marker.full])).total ≤ 5 :=
  (direct_mutators_stay_in_range [Marker.full, Marker.full]
    (by norm_num [countStarsInLine, fullCount, halfCount])
    (by norm_num [countStarsInLine, fullCount, halfCount])).2.1
